import Mathlib

/-!
Verification of the ASS-to-VTT conversion engine (`gui_converter.py`).

The engine is shallowly embedded: each Python helper of `ConversionWorker`
becomes a Lean function over `String` / `List Char`, with Python exceptions
modelled as `Option`/`none`.  File I/O is modelled by passing the decoded
line list explicitly; the Qt signal trace of the batch loop is modelled as a
list of `WorkerEvent`s produced by a pure function parameterised by a
per-file conversion oracle.
-/

/-- Whitespace stripped by Python's `str.strip()` (ASCII subset; the inputs
handled by the converter are ASCII-separated fields). -/
def pyIsSpace (c : Char) : Bool :=
  c = ' ' || c = '\t' || c = '\n' || c = '\r' || c = '\x0b' || c = '\x0c'

/-- Embeds `str.strip()` on a character list. -/
def pyStripChars (cs : List Char) : List Char :=
  ((cs.dropWhile pyIsSpace).reverse.dropWhile pyIsSpace).reverse

/-- Embeds `str.strip()`. -/
def pyStrip (s : String) : String :=
  String.mk (pyStripChars s.toList)

/-- Embeds `str.startswith(pat)`: `chStarts pat cs` is true when `pat` is a
leading segment of `cs`. -/
def chStarts : List Char → List Char → Bool
  | [], _ => true
  | _ :: _, [] => false
  | p :: ps, c :: cs => p = c && chStarts ps cs

/-- Embeds `str.split(sep)` for a one-character separator (the source only
splits on `":"`, `"."` and `","`). -/
def pySplitC (sep : Char) : List Char → List (List Char)
  | [] => [[]]
  | c :: rest =>
    match pySplitC sep rest with
    | [] => [[]]
    | f :: fs => if c = sep then [] :: f :: fs else (c :: f) :: fs

/-- Embeds `str.split(sep, maxsplit)` for a one-character separator: at most
`fuel` splits are performed, scanning left to right. -/
def pySplitMax (sep : Char) : Nat → List Char → List (List Char)
  | _, [] => [[]]
  | 0, cs => [cs]
  | fuel + 1, c :: rest =>
    if c = sep then [] :: pySplitMax sep fuel rest
    else
      match pySplitMax sep (fuel + 1) rest with
      | [] => [[c]]
      | f :: fs => (c :: f) :: fs

/-- `sep.join(fields)` on character lists: interleaves `sep` between fields. -/
def joinSep (sep : Char) : List (List Char) → List Char
  | [] => []
  | [a] => a
  | a :: b :: rest => a ++ sep :: joinSep sep (b :: rest)

/-- Digit-run tail for Python's `int()` literal grammar: an underscore must
be followed by a digit; every other character must be a digit. -/
def pyDigitsRest : List Char → Bool
  | [] => true
  | c :: rest =>
    if c = '_' then
      match rest with
      | [] => false
      | d :: rest2 => d.isDigit && pyDigitsRest rest2
    else c.isDigit && pyDigitsRest rest

/-- Nonempty digit run accepted by Python's `int()` (ASCII digits, with
single interior underscores). -/
def pyDigitsOk : List Char → Bool
  | [] => false
  | c :: rest => c.isDigit && pyDigitsRest rest

/-- Decimal value of a validated digit run, skipping underscores. -/
def digitsVal (cs : List Char) : Nat :=
  cs.foldl (fun a c => if c = '_' then a else a * 10 + (c.toNat - 48)) 0

/-- Embeds Python's `int(s)` for base 10: optional surrounding whitespace,
optional sign, then a digit run.  Returns `none` where Python raises
`ValueError`. -/
def pyIntChars (cs0 : List Char) : Option Int :=
  match pyStripChars cs0 with
  | [] => none
  | c :: rest =>
    if c = '+' then
      if pyDigitsOk rest then some (Int.ofNat (digitsVal rest)) else none
    else if c = '-' then
      if pyDigitsOk rest then some (-(Int.ofNat (digitsVal rest))) else none
    else if pyDigitsOk (c :: rest) then some (Int.ofNat (digitsVal (c :: rest)))
    else none

/-- Embeds the Python format spec `f"{n:02d}"`: decimal rendering left-padded
with zeros to width 2 (a sign counts toward the width). -/
def fmt02 (n : Int) : String :=
  if n < 0 then "-" ++ Nat.repr n.natAbs
  else if n < 10 then "0" ++ Nat.repr n.natAbs
  else Nat.repr n.natAbs

/-- Embeds `ConversionWorker.ass_time_to_vtt_time`.  The two tuple
unpackings require exactly three colon fields and exactly two dot fields;
`int()` is applied to hours, minutes and whole seconds; the centisecond
field is kept as text and extended with a literal `'0'`.  Any `ValueError`
raised in the Python body becomes `none`. -/
def ass_time_to_vtt_time (ass_time : String) : Option String :=
  match pySplitC ':' ass_time.toList with
  | [hours, minutes, seconds0] =>
    match pySplitC '.' seconds0 with
    | [seconds, centiseconds] =>
      let milliseconds := String.mk centiseconds ++ "0"
      match pyIntChars hours, pyIntChars minutes, pyIntChars seconds with
      | some h, some m, some s =>
        some (fmt02 h ++ ":" ++ fmt02 m ++ ":" ++ fmt02 s ++ "." ++ milliseconds)
      | _, _, _ => none
    | _ => none
  | _ => none

/-- Decimal rendering of a natural number zero-padded to at least 2 digits
(the spec's reading of the output hour/minute/second fields). -/
def zeroPad2 (n : Nat) : String :=
  if n < 10 then "0" ++ Nat.repr n else Nat.repr n

/-- Decimal rendering of a natural number zero-padded to at least 3 digits
(the spec's reading of the output millisecond field). -/
def zeroPad3 (n : Nat) : String :=
  if n < 10 then "00" ++ Nat.repr n
  else if n < 100 then "0" ++ Nat.repr n
  else Nat.repr n

/-- Value of a list of decimal digits, most significant first. -/
def decVal (ds : List Nat) : Nat :=
  ds.foldl (fun a d => a * 10 + d) 0

/-- The ASS timestamp string built from hour digits `hd` and the digit
values of the two-digit minute, second and centisecond fields. -/
def assTimeOf (hd : List Nat) (m1 m2 s1 s2 c1 c2 : Nat) : String :=
  String.mk (hd.map Nat.digitChar ++
    ':' :: Nat.digitChar m1 :: Nat.digitChar m2 ::
    ':' :: Nat.digitChar s1 :: Nat.digitChar s2 ::
    '.' :: Nat.digitChar c1 :: [Nat.digitChar c2])

/-- Skips to just past the next right brace, `none` if there is none.  This
is how far the (compiling) override-block regex match extends once a left
brace and a backslash have been seen. -/
def skipToBrace : List Char → Option (List Char)
  | [] => none
  | c :: rest => if c = '}' then some rest else skipToBrace rest

/-- Fuel-indexed scan embedding `re.sub` of the override-block pattern
(left brace, backslash, any run of non-right-brace characters, right
brace — replaced by the empty string, scanning left to right).  The fuel is
an upper bound on the input length, so the first clause is unreachable at
the call site in `stripBlocks`. -/
def stripBlocksGo : Nat → List Char → List Char
  | 0, cs => cs
  | _, [] => []
  | fuel + 1, c :: rest =>
    if c = '{' then
      match rest with
      | '\\' :: rest2 =>
        match skipToBrace rest2 with
        | some rest3 => stripBlocksGo fuel rest3
        | none => c :: stripBlocksGo fuel rest
      | _ => c :: stripBlocksGo fuel rest
    else c :: stripBlocksGo fuel rest

/-- Override-block stripping: the first `re.sub` of
`clean_ass_formatting`, whose pattern compiles (see `reClassOk`), so the
manual-scan `except` fallback in the source is unreachable. -/
def stripBlocks (cs : List Char) : List Char :=
  stripBlocksGo cs.length cs

/-- Drops a leading caret, as the Python regex parser does right after an
opening bracket of a character class. -/
def dropCaret : List Char → List Char
  | '^' :: r => r
  | cs => cs

/-- Drops a leading right-bracket, which the Python regex parser treats as a
literal member when it is the first character of a character class. -/
def dropLitBracket : List Char → List Char
  | ']' :: r => r
  | cs => cs

/-- Fuel-indexed scan of a Python regex pattern deciding whether every
character class is terminated, the one aspect of `re.compile` the
conversion code exercises: inside a class (second argument `true`) a
backslash escapes the next character and an unescaped right bracket closes
the class; a class left open at the end of the pattern makes `re.compile`
raise `re.error("unterminated character set")`. -/
def reScan : Nat → Bool → List Char → Bool
  | _, inClass, [] => !inClass
  | 0, _, _ => false
  | fuel + 1, false, c :: rest =>
    if c = '\\' then
      match rest with
      | [] => true
      | _ :: r2 => reScan fuel false r2
    else if c = '[' then reScan fuel true (dropLitBracket (dropCaret rest))
    else reScan fuel false rest
  | fuel + 1, true, c :: rest =>
    if c = ']' then reScan fuel false rest
    else if c = '\\' then
      match rest with
      | [] => false
      | _ :: r2 => reScan fuel true r2
    else reScan fuel true rest

/-- Whether `re.compile` accepts the pattern's character classes. -/
def reClassOk (cs : List Char) : Bool :=
  reScan (cs.length + 1) false cs

/-- The override-block pattern of the first `re.sub`
(raw Python text: backslash-left-brace, double backslash, a negated class
of the right brace starred, backslash-right-brace). -/
def blockPat : List Char :=
  ['\\', '{', '\\', '\\', '[', '^', '}', ']', '*', '\\', '}']

/-- The pairing pattern for tag character `t`
(raw Python text: backslash-left-brace, double backslash, `t`, optional
`1`, backslash-right-brace, a group opening `([^]*?)`, then
backslash-left-brace, double backslash, `t`, `0`, backslash-right-brace).
Its character class begins with `[^]`, whose right bracket Python treats as
a literal member, and no later unescaped right bracket occurs, so the class
is unterminated and `re.compile` rejects the pattern. -/
def pairPat (t : Char) : List Char :=
  ['\\', '{', '\\', '\\', t, '1', '?', '\\', '}',
   '(', '[', '^', ']', '*', '?', ')',
   '\\', '{', '\\', '\\', t, '0', '\\', '}']

/-- Matches the opening tag (left brace, backslash, `t`, optional `1`,
right brace) at the head, returning the remainder. -/
def tryOpen (t : Char) (cs : List Char) : Option (List Char) :=
  if chStarts ['{', '\\', t, '1', '}'] cs then some (cs.drop 5)
  else if chStarts ['{', '\\', t, '}'] cs then some (cs.drop 4)
  else none

/-- Finds the nearest closing tag (left brace, backslash, `t`, `0`, right
brace), returning the content before it and the remainder after it. -/
def findCloseTag (t : Char) : List Char → Option (List Char × List Char)
  | [] => none
  | c :: rest =>
    if chStarts ['{', '\\', t, '0', '}'] (c :: rest) then
      some ([], (c :: rest).drop 5)
    else
      match findCloseTag t rest with
      | some (a, b) => some (c :: a, b)
      | none => none

/-- Fuel-indexed body of `pairSub`. -/
def pairSubGo (t : Char) : Nat → List Char → List Char
  | _, [] => []
  | 0, cs => cs
  | fuel + 1, c :: rest =>
    match tryOpen t (c :: rest) with
    | some afterOpen =>
      match findCloseTag t afterOpen with
      | some (content, after) =>
        '<' :: t :: '>' :: (content ++ '<' :: '/' :: t :: '>' :: pairSubGo t fuel after)
      | none => c :: pairSubGo t fuel rest
    | none => c :: pairSubGo t fuel rest

/-- The substitution one pairing `re.sub` would perform if its pattern
compiled: each recognised open/close pair around some content is replaced
by the HTML-like tags.  Unreachable in `clean_ass_formatting`, because the
pattern does not compile. -/
def pairSub (t : Char) (text : String) : String :=
  String.mk (pairSubGo t text.length text.toList)

/-- One guarded `re.sub` call inside a `try`/`except re.error`: the
substitution runs only if the pattern's character classes terminate;
otherwise `re.compile` raises and the handler leaves the text unchanged. -/
def guardedSub (pattern : List Char) (sub : String → String) (text : String) : String :=
  if reClassOk pattern then sub text else text

/-- Embeds `ConversionWorker.clean_ass_formatting`: override-block
stripping (whose pattern compiles, so the manual fallback branch is dead),
then the three guarded pairing substitutions for bold, italic and
underline, each of whose patterns fails to compile. -/
def clean_ass_formatting (text : String) : String :=
  guardedSub (pairPat 'u') (pairSub 'u')
    (guardedSub (pairPat 'i') (pairSub 'i')
      (guardedSub (pairPat 'b') (pairSub 'b')
        (String.mk (stripBlocks text.toList))))

/-- Override-block stripping alone, the claimed extensional behaviour of
the whole cleanup. -/
def stripOverrideBlocksOnly (text : String) : String :=
  String.mk (stripBlocks text.toList)

/-- Whether the stripped line starts with `[Events]` (the test that enters
the Events section). -/
def isEventsHeader (l : String) : Bool :=
  chStarts ("[Events]").toList (pyStripChars l.toList)

/-- Whether the stripped line starts with `[` (the test that, inside the
section, breaks out of the scan). -/
def startsBracket (l : String) : Bool :=
  chStarts (("[") : String).toList (pyStripChars l.toList)

/-- Whether the stripped line starts with `Dialogue:`. -/
def isDialogue (l : String) : Bool :=
  chStarts ("Dialogue:").toList (pyStripChars l.toList)

/-- Embeds the line loop of `ConversionWorker.parse_ass_file`: the second
argument is `in_events_section`.  A stripped line starting with `[Events]`
sets the flag and continues; a line starting with `[` while the flag is set
(and not starting with `[Events]`, which the previous branch already
consumed) breaks out of the loop; a `Dialogue:` line inside the section is
split on at most 9 commas and accepted when it has at least 10 fields. -/
def parseLines : List String → Bool → List (String × String × String)
  | [], _ => []
  | rawLine :: rest, inEv =>
    let line := pyStripChars rawLine.toList
    if isEventsHeader rawLine then parseLines rest true
    else if startsBracket rawLine && inEv && !(isEventsHeader rawLine) then []
    else if inEv && isDialogue rawLine then
      let parts := pySplitMax ',' 9 line
      if parts.length ≥ 10 then
        let start_time := String.mk (pyStripChars (parts.getD 1 []))
        let end_time := String.mk (pyStripChars (parts.getD 2 []))
        let raw_text :=
          if parts.length > 9 then String.mk (pyStripChars (parts.getD 9 [])) else ""
        let clean_text := clean_ass_formatting raw_text
        (start_time, end_time, clean_text) :: parseLines rest inEv
      else parseLines rest inEv
    else parseLines rest inEv

/-- Embeds `ConversionWorker.parse_ass_file` on the decoded line list of
the input file (the `utf-8-sig` and `utf-8` reading branches run the same
loop, so decoding is modelled upstream, in `convert_ass_to_vtt`). -/
def parse_ass_file (fileLines : List String) : List (String × String × String) :=
  parseLines fileLines false

/-- Embeds the cue loop of `ConversionWorker.generate_vtt_content`: `i` is
the 1-based `enumerate` counter; an event whose start or end timestamp
fails to convert appends nothing (`except Exception: continue`) while the
counter still advances. -/
def generate_vtt_lines : List (String × String × String) → Nat → List String
  | [], _ => []
  | (s, e, t) :: rest, i =>
    match ass_time_to_vtt_time s, ass_time_to_vtt_time e with
    | some vs, some ve =>
      Nat.repr i :: (vs ++ " --> " ++ ve) :: t :: "" :: generate_vtt_lines rest (i + 1)
    | _, _ => generate_vtt_lines rest (i + 1)

/-- Embeds `ConversionWorker.generate_vtt_content`. -/
def generate_vtt_content (subtitles : List (String × String × String)) : String :=
  String.intercalate "\n" (["WEBVTT FILE", ""] ++ generate_vtt_lines subtitles 1)

/-- Embeds `str.rfind(c)`: index of the last occurrence, `-1` if absent. -/
def pyRFind (cs : List Char) (c : Char) : Int :=
  match List.findIdx? (fun x => x = c) cs.reverse with
  | none => -1
  | some j => (cs.length : Int) - 1 - (j : Int)

/-- Embeds `os.path.splitext(p)[0]` (POSIX rules): cut at the last dot when
it lies after the last slash and the basename has a non-dot character
before it; otherwise return the path unchanged. -/
def splitext_base (p : String) : String :=
  let cs := p.toList
  let sepIndex := pyRFind cs '/'
  let dotIndex := pyRFind cs '.'
  if sepIndex < dotIndex then
    let stemPart := (cs.drop (sepIndex + 1).toNat).take (dotIndex - sepIndex - 1).toNat
    if stemPart.any (fun c => c ≠ '.') then String.mk (cs.take dotIndex.toNat)
    else p
  else p

/-- Embeds `os.path.basename(p)` (POSIX rules): everything after the last
slash. -/
def basename (p : String) : String :=
  String.mk ((p.toList.reverse.takeWhile (fun c => c ≠ '/')).reverse)

/-- Embeds `ConversionWorker.convert_ass_to_vtt`.  `fileOnDisk` models
`os.path.exists`; `decoded` models the two-attempt decode of the input
(`none` when both encodings fail, i.e. `UnicodeDecodeError` escapes).  On
success the result is the derived output path paired with the document text
written to it; `none` models a raised exception. -/
def convert_ass_to_vtt (fileOnDisk : Bool) (decoded : Option (List String))
    (ass_file_path suffix : String) : Option (String × String) :=
  if fileOnDisk = false then none
  else
    match decoded with
    | none => none
    | some fileLines =>
      let subtitles := parse_ass_file fileLines
      let vtt_content := generate_vtt_content subtitles
      let base_name := splitext_base ass_file_path
      let vtt_file_path := base_name ++ "." ++ suffix
      some (vtt_file_path, vtt_content)

/-- One Qt signal emission of `ConversionWorker`. -/
inductive WorkerEvent where
  | progressUpdated (value : Nat)
  | fileConverted (name : String)
  | conversionFinished
  | errorOccurred (message : String)
deriving DecidableEq

/-- Embeds the loop body of `ConversionWorker.run`: `convert` is the
per-file conversion oracle (`none` = success, `some cause` = the raised
exception's `str(e)`), `total` is `total_files` and `i` the `enumerate`
index.  On success the worker emits `file_converted` then
`progress_updated(int((i+1)/total*100))`; on failure it emits one
`error_occurred` with the display name and cause.  The progress value is
modelled as the exact truncation `(i+1)*100/total`, which equals the
source's binary floating-point computation for every batch size below
`2^46`. -/
def runLoop (convert : String → Option String) (total : Nat) :
    Nat → List String → List WorkerEvent
  | _, [] => []
  | i, f :: rest =>
    match convert f with
    | none =>
      WorkerEvent.fileConverted (basename f)
        :: WorkerEvent.progressUpdated ((i + 1) * 100 / total)
        :: runLoop convert total (i + 1) rest
    | some cause =>
      WorkerEvent.errorOccurred ("Error converting " ++ basename f ++ ": " ++ cause)
        :: runLoop convert total (i + 1) rest

/-- Embeds `ConversionWorker.run`: the loop over all files followed by the
single `conversion_finished` emission. -/
def runWorker (convert : String → Option String) (files : List String) : List WorkerEvent :=
  runLoop convert files.length 0 files ++ [WorkerEvent.conversionFinished]

/-- Projection extracting a progress value from an event. -/
def progressValue : WorkerEvent → Option Nat
  | .progressUpdated v => some v
  | _ => none

/-- Projection extracting an error message from an event. -/
def errMessage : WorkerEvent → Option String
  | .errorOccurred m => some m
  | _ => none

/-- Projection extracting a converted-file display name from an event. -/
def convName : WorkerEvent → Option String
  | .fileConverted n => some n
  | _ => none

/-- The cue block an event at 1-based input position `i` contributes to the
document: empty when either timestamp fails to convert. -/
def cueBlock (i : Nat) (ev : String × String × String) : List String :=
  match ass_time_to_vtt_time ev.1, ass_time_to_vtt_time ev.2.1 with
  | some vs, some ve => [Nat.repr i, vs ++ " --> " ++ ve, ev.2.2, ""]
  | _, _ => []

/-- Enumeration of a list with positions starting at `i`. -/
def enumF (i : Nat) : List α → List (Nat × α)
  | [] => []
  | x :: xs => (i, x) :: enumF (i + 1) xs

/-- The claim's well-formedness condition on a timestamp string, in the
corrected form: three colon fields, exactly one dot in the seconds field,
and integer-parsable hours, minutes and whole seconds. -/
def validTimeFields (t : String) : Prop :=
  (pySplitC ':' t.toList).length = 3 ∧
  (pySplitC '.' ((pySplitC ':' t.toList).getD 2 [])).length = 2 ∧
  (pyIntChars ((pySplitC ':' t.toList).getD 0 [])).isSome = true ∧
  (pyIntChars ((pySplitC ':' t.toList).getD 1 [])).isSome = true ∧
  (pyIntChars ((pySplitC '.' ((pySplitC ':' t.toList).getD 2 [])).getD 0 [])).isSome = true

/-! ### Helper lemmas -/

theorem generate_vtt_lines_eq_enum (subs : List (String × String × String)) :
    ∀ i, generate_vtt_lines subs i = ((enumF i subs).map (fun p => cueBlock p.1 p.2)).flatten := by
  induction subs with
  | nil => intro i; rfl
  | cons ev rest ih =>
    intro i
    obtain ⟨s, e, t⟩ := ev
    simp only [enumF, List.map_cons, List.flatten_cons]
    cases h1 : ass_time_to_vtt_time s <;> cases h2 : ass_time_to_vtt_time e <;>
      simp [generate_vtt_lines, cueBlock, h1, h2, ih (i + 1)]

theorem parseLines_false_skip (pre rest : List String)
    (h : ∀ l ∈ pre, isEventsHeader l = false) :
    parseLines (pre ++ rest) false = parseLines rest false := by
  induction pre with
  | nil => rfl
  | cons l pre ih =>
    have hl := h l (List.mem_cons_self l pre)
    simp only [List.cons_append, parseLines, hl, Bool.false_eq_true, if_false,
      Bool.and_false, Bool.false_and, Bool.and_self]
    exact ih fun x hx => h x (List.mem_cons_of_mem l hx)

theorem parse_ass_file_no_events (lines : List String)
    (h : ∀ l ∈ lines, isEventsHeader l = false) :
    parse_ass_file lines = [] := by
  have := parseLines_false_skip lines [] h
  simpa [parse_ass_file] using this

theorem parseLines_true_break (l : String)
    (hb : startsBracket l = true) (hne : isEventsHeader l = false) :
    ∀ (mid rest : List String), parseLines (mid ++ l :: rest) true = parseLines mid true := by
  intro mid
  induction mid with
  | nil =>
    intro rest
    simp [parseLines, hb, hne]
  | cons m mid ih =>
    intro rest
    simp only [List.cons_append, parseLines]
    cases h1 : isEventsHeader m <;> cases h2 : startsBracket m <;>
      simp [h1, h2, ih]

/-! ### Claim theorems -/

/-- C9: for every input string, `clean_ass_formatting` is extensionally
equal to the generic override-block stripping step alone: the three
bold/italic/underline pairing substitutions never change the text, because
their regex patterns have an unterminated character class, the compilation
error is silently swallowed, and so no markup tags are ever introduced by
the cleanup. -/
theorem clean_equals_strip_only (text : String) :
    clean_ass_formatting text = stripOverrideBlocksOnly text := by
  simp [clean_ass_formatting, stripOverrideBlocksOnly, guardedSub,
    show reClassOk (pairPat 'b') = false from rfl,
    show reClassOk (pairPat 'i') = false from rfl,
    show reClassOk (pairPat 'u') = false from rfl]

/-- C7 (code divergence witnessed): cleaning the ASS text
`{\b1}bold{\b0}` yields `bold`, not the `<b>bold</b>` that the claim (and
the function's own docstring, which promises conversion of formatting
codes to HTML-like tags) call for: the override-block stripper deletes the
tag markers first, and the pairing substitutions are additionally dead
because their patterns do not compile. -/
theorem clean_bold_pair_eval :
    clean_ass_formatting "\x7b\\b1\x7dbold\x7b\\b0\x7d" = "bold" ∧
    clean_ass_formatting "\x7b\\b1\x7dbold\x7b\\b0\x7d" ≠ "<b>bold</b>" := by
  decide

/-- C2 (counterexample): on a two-event input whose first event has a
malformed timestamp, the assembled document's only cue is numbered `2`, so
the emitted cue numbers neither start at 1 nor are gap-free when events
are omitted. -/
theorem vtt_cue_gap_example :
    generate_vtt_content [("bad", "bad", "x"), ("0:00:00.00", "0:00:01.00", "y")]
      = "WEBVTT FILE\n\n2\n00:00:00.000 --> 00:00:01.000\ny\n" := by
  decide

/-- C2 (amended): the assembled document is the `WEBVTT FILE` header, a
blank line, and then, for each event at 1-based input position `i` in
order, the cue block numbered `i` — which is empty (the event is silently
omitted, leaving a gap in the emitted numbers) exactly when the event's
start or end timestamp fails to convert.  Each event's block depends only
on that event, so the cues of all other events are unaffected, and
assembly is a total function: it never fails because of a malformed
event. -/
theorem vtt_cue_numbering_by_position (subs : List (String × String × String)) :
    generate_vtt_content subs
      = String.intercalate "\n"
          (["WEBVTT FILE", ""] ++ ((enumF 1 subs).map (fun p => cueBlock p.1 p.2)).flatten) := by
  simp [generate_vtt_content, generate_vtt_lines_eq_enum]

/-- C4 (counterexample): a one-file batch whose single (hence last) task
fails emits no progress update at all — in particular the progress value
100 is never reached even though the last task has been attempted and the
batch finishes. -/
theorem progress_not_100_on_last_failure :
    runWorker (fun _ => some "File not found") ["a.ass"]
        = [WorkerEvent.errorOccurred "Error converting a.ass: File not found",
           WorkerEvent.conversionFinished] ∧
    WorkerEvent.progressUpdated 100 ∉ runWorker (fun _ => some "File not found") ["a.ass"] := by
  decide

/-- C5 (counterexample): the line `[Events] again` begins with `[` and is
not the line `[Events]`, yet while inside the Events section it does not
end scanning — the parser treats any line starting with the prefix
`[Events]` as re-entering the section, so the following Dialogue line is
still parsed. -/
theorem events_reentry_not_break :
    parse_ass_file ["[Events]",
        "Dialogue: 0,0:00:00.00,0:00:01.00,Default,,0,0,0,,hello",
        "[Events] again",
        "Dialogue: 0,0:00:02.00,0:00:03.00,Default,,0,0,0,,world"]
      = [("0:00:00.00", "0:00:01.00", "hello"), ("0:00:02.00", "0:00:03.00", "world")] ∧
    pyStrip "[Events] again" ≠ "[Events]" ∧
    startsBracket "[Events] again" = true := by
  decide

/-- C8 (counterexample): the timestamp `x:00:00.00` splits into three
colon-separated fields and its seconds field contains a `.`, yet the
conversion still fails (the hour field is not an integer), so failure is
not characterised by the two conditions the claim states. -/
theorem timestamp_failure_beyond_spec :
    (pySplitC ':' ("x:00:00.00").toList).length = 3 ∧
    '.' ∈ (pySplitC ':' ("x:00:00.00").toList).getD 2 [] ∧
    ass_time_to_vtt_time "x:00:00.00" = none := by
  decide

/-- C5 (amended): a line whose stripped form begins with the prefix
`[Events]` (not only the exact line `[Events]`) enters or re-enters the
Events section; a line beginning with `[` but not with the prefix
`[Events]`, encountered while inside the section, exits it and ends
scanning; and `Dialogue:` lines outside the Events section yield no
subtitle events (any prefix of the file containing no `[Events]`-prefixed
line contributes nothing). -/
theorem events_section_scanning :
    (∀ (pre rest : List String), (∀ l ∈ pre, isEventsHeader l = false) →
        parse_ass_file (pre ++ rest) = parse_ass_file rest) ∧
    (∀ (l : String) (mid rest : List String),
        startsBracket l = true → isEventsHeader l = false →
        parse_ass_file ("[Events]" :: (mid ++ l :: rest))
          = parse_ass_file ("[Events]" :: mid)) := by
  constructor
  · intro pre rest h
    exact parseLines_false_skip pre rest h
  · intro l mid rest hb hne
    show parseLines ("[Events]" :: (mid ++ l :: rest)) false
        = parseLines ("[Events]" :: mid) false
    have hhdr : isEventsHeader "[Events]" = true := by decide
    simp only [parseLines, hhdr, if_true]
    exact parseLines_true_break l hb hne mid rest

/-- C5 witness: a `Dialogue:` line before any `[Events]` header yields
nothing, and a `[V4+ Styles]` header inside the section ends scanning so a
later `Dialogue:` line is ignored. -/
theorem events_section_scanning_witness :
    parse_ass_file (["Dialogue: 0,0:00:00.00,0:00:01.00,Default,,0,0,0,,early"] ++ []) = parse_ass_file [] ∧
    parse_ass_file ("[Events]" :: ([] ++ "[V4+ Styles]" ::
        ["Dialogue: 0,0:00:00.00,0:00:01.00,Default,,0,0,0,,late"]))
      = parse_ass_file ["[Events]"] :=
  ⟨events_section_scanning.1 ["Dialogue: 0,0:00:00.00,0:00:01.00,Default,,0,0,0,,early"] []
      (by decide),
   events_section_scanning.2 "[V4+ Styles]" []
      ["Dialogue: 0,0:00:00.00,0:00:01.00,Default,,0,0,0,,late"] (by decide) (by decide)⟩

/-- C10: a readable input yielding no accepted `Dialogue` events — e.g. a
file with no `[Events]` section — still converts: the document generated
from the empty event list is exactly the header line `WEBVTT FILE`
followed by one blank line, and `convert_ass_to_vtt` returns the derived
output path together with that header-only document. -/
theorem empty_events_conversion :
    generate_vtt_content [] = "WEBVTT FILE\n" ∧
    ∀ (fileLines : List String) (path suffix : String),
      (∀ l ∈ fileLines, isEventsHeader l = false) →
      convert_ass_to_vtt true (some fileLines) path suffix
        = some (splitext_base path ++ "." ++ suffix, "WEBVTT FILE\n") := by
  refine ⟨rfl, ?_⟩
  intro fileLines path suffix h
  simp [convert_ass_to_vtt, parse_ass_file_no_events fileLines h,
    show generate_vtt_content [] = "WEBVTT FILE\n" from rfl]

/-- C10 witness: a concrete file with no `[Events]` section converts to the
header-only document at the derived path. -/
theorem empty_events_conversion_witness :
    convert_ass_to_vtt true (some ["[Script Info]", "Dialogue: 0,a,b,c,d,e,f,g,h,ignored"])
        "movie.ass" "vtt"
      = some (splitext_base "movie.ass" ++ "." ++ "vtt", "WEBVTT FILE\n") :=
  empty_events_conversion.2 ["[Script Info]", "Dialogue: 0,a,b,c,d,e,f,g,h,ignored"]
    "movie.ass" "vtt" (by decide)

theorem chStarts_append (p : List Char) : ∀ (a b : List Char),
    chStarts p a = true → chStarts p (a ++ b) = true := by
  induction p with
  | nil => intro a b _; rfl
  | cons x ps ih =>
    intro a b h
    cases a with
    | nil => simp [chStarts] at h
    | cons y ys =>
      simp only [chStarts, Bool.and_eq_true, decide_eq_true_eq] at h
      simp only [List.cons_append, chStarts, Bool.and_eq_true, decide_eq_true_eq]
      exact ⟨h.1, ih ys b h.2⟩

theorem chStarts_ne_head (p q : Char) (ps qs cs : List Char) (hpq : q ≠ p)
    (h : chStarts (p :: ps) cs = true) : chStarts (q :: qs) cs = false := by
  cases cs with
  | nil => rfl
  | cons c cs' =>
    simp only [chStarts, Bool.and_eq_true, decide_eq_true_eq] at h
    simp only [chStarts, Bool.and_eq_false_iff, decide_eq_false_iff_not]
    exact Or.inl (h.1 ▸ hpq)

theorem chStarts_joinSep (p : List Char) (sep : Char) (a : List Char)
    (rest : List (List Char)) (h : chStarts p a = true) :
    chStarts p (joinSep sep (a :: rest)) = true := by
  cases rest with
  | nil => exact h
  | cons b r => exact chStarts_append p a (sep :: joinSep sep (b :: r)) h

theorem pySplitMax_zero (sep : Char) (cs : List Char) :
    pySplitMax sep 0 cs = [cs] := by
  cases cs <;> rfl

theorem pySplitMax_nosep (sep : Char) : ∀ (a : List Char), sep ∉ a →
    ∀ fuel, pySplitMax sep fuel a = [a] := by
  intro a
  induction a with
  | nil => intro _ fuel; cases fuel <;> rfl
  | cons c rest ih =>
    intro h fuel
    have hc : ¬(c = sep) := fun hcs => h (hcs ▸ List.mem_cons_self c rest)
    cases fuel with
    | zero => rfl
    | succ fuel =>
      have hr := ih (fun hm => h (List.mem_cons_of_mem c hm)) (fuel + 1)
      simp only [pySplitMax, if_neg hc, hr]

theorem pySplitMax_step (sep : Char) : ∀ (a : List Char) (b : List Char) (fuel : Nat),
    sep ∉ a → pySplitMax sep (fuel + 1) (a ++ sep :: b) = a :: pySplitMax sep fuel b := by
  intro a
  induction a with
  | nil =>
    intro b fuel _
    simp [pySplitMax]
  | cons c rest ih =>
    intro b fuel h
    have hc : ¬(c = sep) := fun hcs => h (hcs ▸ List.mem_cons_self c rest)
    have hr := ih b fuel (fun hm => h (List.mem_cons_of_mem c hm))
    simp only [List.cons_append, pySplitMax, if_neg hc]
    rw [show rest.append (sep :: b) = rest ++ sep :: b from rfl, hr]

theorem pySplitMax_joinSep_exact (sep : Char) : ∀ (fs : List (List Char)) (fuel : Nat),
    fs.length = fuel + 1 → (∀ f ∈ fs.dropLast, sep ∉ f) →
    pySplitMax sep fuel (joinSep sep fs) = fs := by
  intro fs
  induction fs with
  | nil => intro fuel h _; simp at h
  | cons a rest ih =>
    intro fuel hlen hfree
    cases rest with
    | nil =>
      have : fuel = 0 := by simpa using hlen
      subst this
      exact pySplitMax_zero sep a
    | cons b r =>
      cases fuel with
      | zero => simp at hlen
      | succ fuel =>
        have ha : sep ∉ a := hfree a (by simp [List.dropLast])
        have hrest : (b :: r).length = fuel + 1 := by simpa using hlen
        have hfree' : ∀ f ∈ (b :: r).dropLast, sep ∉ f := by
          intro f hf
          exact hfree f (by simp [List.dropLast, hf])
        simp only [joinSep, pySplitMax_step sep a (joinSep sep (b :: r)) fuel ha,
          ih fuel hrest hfree']

theorem pySplitMax_joinSep_short (sep : Char) : ∀ (fs : List (List Char)) (fuel : Nat),
    fs ≠ [] → fs.length ≤ fuel + 1 → (∀ f ∈ fs, sep ∉ f) →
    pySplitMax sep fuel (joinSep sep fs) = fs := by
  intro fs
  induction fs with
  | nil => intro _ h _ _; simp at h
  | cons a rest ih =>
    intro fuel _ hlen hfree
    cases rest with
    | nil => exact pySplitMax_nosep sep a (hfree a (List.mem_cons_self a [])) fuel
    | cons b r =>
      cases fuel with
      | zero => simp at hlen
      | succ fuel =>
        have ha : sep ∉ a := hfree a (List.mem_cons_self a (b :: r))
        have hrest : (b :: r).length ≤ fuel + 1 := by simpa using hlen
        have hfree' : ∀ f ∈ b :: r, sep ∉ f := fun f hf =>
          hfree f (List.mem_cons_of_mem a hf)
        simp only [joinSep, pySplitMax_step sep a (joinSep sep (b :: r)) fuel ha,
          ih fuel (by simp) hrest hfree']

/-- C6: within the Events section, a `Dialogue:` line is split on commas
into at most 10 fields, the 10th field absorbing all remaining commas: a
line joined from 10 fields whose first nine are comma-free — the tenth may
contain any number of commas — is accepted as exactly one subtitle event
with start = field 2, end = field 3 and raw text = field 10 (1-indexed,
whitespace-trimmed as the source does), while a comma-free line with fewer
than 10 fields is rejected and yields no event. -/
theorem dialogue_field_extraction :
    (∀ f0 f1 f2 f3 f4 f5 f6 f7 f8 f9 : String,
      chStarts ("Dialogue:").toList f0.toList = true →
      (∀ f ∈ [f0, f1, f2, f3, f4, f5, f6, f7, f8], ',' ∉ f.toList) →
      pyStripChars (joinSep ',' ([f0, f1, f2, f3, f4, f5, f6, f7, f8, f9].map String.toList))
        = joinSep ',' ([f0, f1, f2, f3, f4, f5, f6, f7, f8, f9].map String.toList) →
      parse_ass_file ["[Events]",
          String.mk (joinSep ',' ([f0, f1, f2, f3, f4, f5, f6, f7, f8, f9].map String.toList))]
        = [(String.mk (pyStripChars f1.toList), String.mk (pyStripChars f2.toList),
            clean_ass_formatting (String.mk (pyStripChars f9.toList)))]) ∧
    (∀ fs : List String, fs ≠ [] → fs.length ≤ 9 →
      (∀ f ∈ fs, ',' ∉ f.toList) →
      chStarts ("Dialogue:").toList ((fs.getD 0 "").toList) = true →
      pyStripChars (joinSep ',' (fs.map String.toList)) = joinSep ',' (fs.map String.toList) →
      parse_ass_file ["[Events]", String.mk (joinSep ',' (fs.map String.toList))] = []) := by
  constructor
  · intro f0 f1 f2 f3 f4 f5 f6 f7 f8 f9 hdial hcomma hstrip
    set L := joinSep ',' ([f0, f1, f2, f3, f4, f5, f6, f7, f8, f9].map String.toList) with hL
    have hmap : [f0, f1, f2, f3, f4, f5, f6, f7, f8, f9].map String.toList
        = [f0.toList, f1.toList, f2.toList, f3.toList, f4.toList, f5.toList, f6.toList,
           f7.toList, f8.toList, f9.toList] := rfl
    have hDL : chStarts ("Dialogue:").toList L = true := by
      rw [hL, hmap]
      exact chStarts_joinSep _ ',' f0.toList _ hdial
    have hD : ("Dialogue:").toList = 'D' :: ("ialogue:").toList := rfl
    rw [hD] at hDL
    have hne : isEventsHeader (String.mk L) = false := by
      unfold isEventsHeader
      rw [show pyStripChars (String.mk L).toList = L from hstrip]
      exact chStarts_ne_head 'D' '[' _ _ L (by decide) hDL
    have hbr : startsBracket (String.mk L) = false := by
      unfold startsBracket
      rw [show pyStripChars (String.mk L).toList = L from hstrip]
      exact chStarts_ne_head 'D' '[' _ _ L (by decide) hDL
    have hd : isDialogue (String.mk L) = true := by
      unfold isDialogue
      rw [show pyStripChars (String.mk L).toList = L from hstrip, hD]
      exact hDL
    have h0 : parse_ass_file ["[Events]", String.mk L] = parseLines [String.mk L] true := rfl
    rw [h0]
    have hfree : ∀ f ∈ [f0.toList, f1.toList, f2.toList, f3.toList, f4.toList, f5.toList,
        f6.toList, f7.toList, f8.toList], ',' ∉ f := by
      intro f hf
      simp only [List.mem_cons, List.not_mem_nil, or_false] at hf
      rcases hf with h | h | h | h | h | h | h | h | h <;> subst h <;> exact hcomma _ (by simp)
    have hsplit : pySplitMax ',' 9 L
        = [f0.toList, f1.toList, f2.toList, f3.toList, f4.toList, f5.toList, f6.toList,
           f7.toList, f8.toList, f9.toList] := by
      rw [hL, hmap]
      exact pySplitMax_joinSep_exact ',' _ 9 rfl (by simpa using hfree)
    simp only [parseLines, hne, hbr, hd, Bool.and_self, Bool.true_and, Bool.false_eq_true,
      if_false, if_true]
    rw [show pyStripChars (String.mk L).toList = L from hstrip, hsplit]
    simp [parseLines]
  · intro fs hne hlen hcomma hdial hstrip
    rcases fs with _ | ⟨f0, fsr⟩
    · exact absurd rfl hne
    set L := joinSep ',' ((f0 :: fsr).map String.toList) with hL
    have hdial0 : chStarts ("Dialogue:").toList f0.toList = true := hdial
    have hDL : chStarts ("Dialogue:").toList L = true := by
      rw [hL]
      exact chStarts_joinSep _ ',' f0.toList _ hdial0
    have hD : ("Dialogue:").toList = 'D' :: ("ialogue:").toList := rfl
    rw [hD] at hDL
    have hne' : isEventsHeader (String.mk L) = false := by
      unfold isEventsHeader
      rw [show pyStripChars (String.mk L).toList = L from hstrip]
      exact chStarts_ne_head 'D' '[' _ _ L (by decide) hDL
    have hbr : startsBracket (String.mk L) = false := by
      unfold startsBracket
      rw [show pyStripChars (String.mk L).toList = L from hstrip]
      exact chStarts_ne_head 'D' '[' _ _ L (by decide) hDL
    have hd : isDialogue (String.mk L) = true := by
      unfold isDialogue
      rw [show pyStripChars (String.mk L).toList = L from hstrip, hD]
      exact hDL
    have h0 : parse_ass_file ["[Events]", String.mk L] = parseLines [String.mk L] true := rfl
    rw [h0]
    have hsplit : pySplitMax ',' 9 L = (f0 :: fsr).map String.toList := by
      rw [hL]
      refine pySplitMax_joinSep_short ',' _ 9 (by simp) (by simp only [List.length_map]; omega) ?_
      intro f hf
      obtain ⟨g, hg, rfl⟩ := List.mem_map.mp hf
      exact hcomma g hg
    have hshort : ¬(10 ≤ (pySplitMax ',' 9 L).length) := by
      rw [hsplit]
      simp only [List.length_map, List.length_cons]
      simp only [List.length_cons] at hlen
      omega
    simp only [parseLines, hne', hbr, hd, Bool.and_self, Bool.true_and, Bool.false_eq_true,
      if_false, if_true]
    rw [show pyStripChars (String.mk L).toList = L from hstrip]
    rw [if_neg hshort]
    rfl

/-- C6 witness: a Dialogue line whose text field contains two commas parses
as one event whose text keeps both commas. -/
theorem dialogue_field_extraction_witness :
    parse_ass_file ["[Events]",
        String.mk (joinSep ',' (["Dialogue: 0", "0:00:01.00", "0:00:02.00", "Default", "", "0",
          "0", "0", "", "hi, there, friend"].map String.toList))]
      = [(String.mk (pyStripChars ("0:00:01.00").toList),
          String.mk (pyStripChars ("0:00:02.00").toList),
          clean_ass_formatting (String.mk (pyStripChars ("hi, there, friend").toList)))] :=
  dialogue_field_extraction.1 "Dialogue: 0" "0:00:01.00" "0:00:02.00" "Default" "" "0" "0" "0" ""
    "hi, there, friend" (by decide) (by decide) (by decide)

theorem runLoop_errs (c : String → Option String) (total : Nat) : ∀ (fs : List String) (i : Nat),
    (runLoop c total i fs).filterMap errMessage
      = fs.filterMap (fun f => (c f).map
          (fun cause => "Error converting " ++ basename f ++ ": " ++ cause)) := by
  intro fs
  induction fs with
  | nil => intro i; rfl
  | cons f rest ih =>
    intro i
    cases hc : c f <;>
      simp [runLoop, hc, errMessage, List.filterMap_cons, ih (i + 1)]

theorem runLoop_convs (c : String → Option String) (total : Nat) : ∀ (fs : List String) (i : Nat),
    (runLoop c total i fs).filterMap convName
      = (fs.filter (fun f => c f = none)).map basename := by
  intro fs
  induction fs with
  | nil => intro i; rfl
  | cons f rest ih =>
    intro i
    cases hc : c f <;>
      simp [runLoop, hc, convName, List.filterMap_cons, List.filter_cons, ih (i + 1)]

theorem runLoop_no_finished (c : String → Option String) (total : Nat) :
    ∀ (fs : List String) (i : Nat), WorkerEvent.conversionFinished ∉ runLoop c total i fs := by
  intro fs
  induction fs with
  | nil => intro i h; simp [runLoop] at h
  | cons f rest ih =>
    intro i h
    cases hc : c f <;> simp [runLoop, hc] at h <;> exact ih (i + 1) h

theorem filter_none_length (c : String → Option String) : ∀ fs : List String,
    (fs.filter (fun f => c f = none)).length + fs.countP (fun f => (c f).isSome) = fs.length := by
  intro fs
  induction fs with
  | nil => rfl
  | cons f rest ih =>
    cases hc : c f <;> simp [List.filter_cons, List.countP_cons, hc] <;> omega

/-- C3: for every per-file conversion oracle and ordered file list, the
batch run attempts every file in listed order: the error notifications are
exactly, in order, one `Error converting <display name>: <cause>` message
per failing file; the file-converted notifications are exactly, in order,
the display names of the succeeding files; exactly one batch-finished
notification is emitted, after everything else; and when exactly one of
the N files fails, exactly N-1 file-converted notifications are
emitted. -/
theorem batch_run_notifications (convert : String → Option String) (files : List String) :
    (runWorker convert files).filterMap errMessage
      = files.filterMap (fun f => (convert f).map
          (fun cause => "Error converting " ++ basename f ++ ": " ++ cause))
  ∧ (runWorker convert files).filterMap convName
      = (files.filter (fun f => convert f = none)).map basename
  ∧ (∃ pre, runWorker convert files = pre ++ [WorkerEvent.conversionFinished]
        ∧ WorkerEvent.conversionFinished ∉ pre)
  ∧ (files.countP (fun f => (convert f).isSome) = 1 →
      ((runWorker convert files).filterMap convName).length = files.length - 1) := by
  refine ⟨?_, ?_, ?_, ?_⟩
  · simp [runWorker, List.filterMap_append, errMessage, runLoop_errs convert files.length files 0]
  · simp [runWorker, List.filterMap_append, convName, runLoop_convs convert files.length files 0]
  · exact ⟨runLoop convert files.length 0 files, rfl,
      runLoop_no_finished convert files.length files 0⟩
  · intro h1
    have h2 : (runWorker convert files).filterMap convName
        = (files.filter (fun f => convert f = none)).map basename := by
      simp [runWorker, List.filterMap_append, convName,
        runLoop_convs convert files.length files 0]
    rw [h2, List.length_map]
    have h3 := filter_none_length convert files
    omega

theorem pv_progress (v : Nat) : progressValue (WorkerEvent.progressUpdated v) = some v := rfl

theorem pv_file (n : String) : progressValue (WorkerEvent.fileConverted n) = none := rfl

theorem pv_err (m : String) : progressValue (WorkerEvent.errorOccurred m) = none := rfl

theorem pv_fin : progressValue WorkerEvent.conversionFinished = none := rfl

theorem progress_step_mono (total i j : Nat) (h : i ≤ j) :
    (i + 1) * 100 / total ≤ (j + 1) * 100 / total :=
  Nat.div_le_div_right (Nat.mul_le_mul_right 100 (by omega))

theorem runLoop_progress_lb (c : String → Option String) (total : Nat) :
    ∀ (fs : List String) (i v : Nat),
      v ∈ (runLoop c total i fs).filterMap progressValue → (i + 1) * 100 / total ≤ v := by
  intro fs
  induction fs with
  | nil => intro i v hv; simp [runLoop] at hv
  | cons f rest ih =>
    intro i v hv
    cases hc : c f <;>
      simp only [runLoop, hc, List.filterMap_cons, pv_file, pv_progress, pv_err,
        List.mem_cons] at hv
    · rcases hv with rfl | hv
      · exact le_refl _
      · exact le_trans (progress_step_mono total i (i + 1) (by omega)) (ih (i + 1) v hv)
    · exact le_trans (progress_step_mono total i (i + 1) (by omega)) (ih (i + 1) v hv)

theorem runLoop_progress_pairwise (c : String → Option String) (total : Nat) :
    ∀ (fs : List String) (i : Nat),
      List.Pairwise (· ≤ ·) ((runLoop c total i fs).filterMap progressValue) := by
  intro fs
  induction fs with
  | nil => intro i; simp [runLoop]
  | cons f rest ih =>
    intro i
    cases hc : c f <;>
      simp only [runLoop, hc, List.filterMap_cons, pv_file, pv_progress, pv_err,
        List.pairwise_cons]
    · exact ⟨fun v hv => le_trans (progress_step_mono total i (i + 1) (by omega))
        (runLoop_progress_lb c total rest (i + 1) v hv), ih (i + 1)⟩
    · exact ih (i + 1)

theorem runLoop_mem100 (c : String → Option String) (total : Nat) :
    ∀ (fs : List String) (i : Nat) (f : String), i + fs.length = total →
      fs.getLast? = some f →
      (WorkerEvent.progressUpdated 100 ∈ runLoop c total i fs ↔ c f = none) := by
  intro fs
  induction fs with
  | nil => intro i f _ hlast; simp at hlast
  | cons x rest ih =>
    intro i f hlen hlast
    cases rest with
    | nil =>
      have hf : x = f := by simpa [List.getLast?] using hlast
      subst hf
      have hlen' : i + 1 = total := by simpa using hlen
      have htot : 0 < total := by omega
      cases hc : c x with
      | none =>
        have h100 : (i + 1) * 100 / total = 100 := by
          rw [hlen']
          exact Nat.mul_div_cancel_left 100 htot
        simp [runLoop, hc, h100]
      | some cause => simp [runLoop, hc]
    | cons y rest' =>
      have hlast' : (y :: rest').getLast? = some f := hlast
      have hlen' : (i + 1) + (y :: rest').length = total := by
        simp only [List.length_cons] at hlen ⊢
        omega
      have hlt : i + 1 < total := by
        simp only [List.length_cons] at hlen
        omega
      have htot : 0 < total := by omega
      have hne100 : ¬(100 = (i + 1) * 100 / total) := by
        have hlt100 : (i + 1) * 100 / total < 100 := by
          rw [Nat.div_lt_iff_lt_mul htot]
          omega
        omega
      cases hc : c x with
      | none =>
        have hstep : runLoop c total i (x :: y :: rest')
            = WorkerEvent.fileConverted (basename x)
              :: WorkerEvent.progressUpdated ((i + 1) * 100 / total)
              :: runLoop c total (i + 1) (y :: rest') := by
          simp [runLoop, hc]
        rw [hstep, List.mem_cons, List.mem_cons, ih (i + 1) f hlen' hlast']
        simp [hne100]
      | some cause =>
        have hstep : runLoop c total i (x :: y :: rest')
            = WorkerEvent.errorOccurred ("Error converting " ++ basename x ++ ": " ++ cause)
              :: runLoop c total (i + 1) (y :: rest') := by
          simp [runLoop, hc]
        rw [hstep, List.mem_cons, ih (i + 1) f hlen' hlast']
        simp

/-- C4 (amended): across one batch run the emitted progress values are
monotonically non-decreasing, and the progress value 100 is emitted iff
the conversion of the last file succeeds — not merely when the last task
has been attempted, since a failing task emits no progress update. -/
theorem progress_monotone_and_100_iff_last_success (convert : String → Option String)
    (files : List String) (f : String) :
    List.Pairwise (· ≤ ·) ((runWorker convert files).filterMap progressValue)
  ∧ (files.getLast? = some f →
      (WorkerEvent.progressUpdated 100 ∈ runWorker convert files ↔ convert f = none)) := by
  constructor
  · have hpv : (runWorker convert files).filterMap progressValue
        = (runLoop convert files.length 0 files).filterMap progressValue := by
      simp [runWorker, List.filterMap_append, pv_fin]
    rw [hpv]
    exact runLoop_progress_pairwise convert files.length files 0
  · intro hlast
    have hmem : (WorkerEvent.progressUpdated 100 ∈ runWorker convert files)
        ↔ WorkerEvent.progressUpdated 100 ∈ runLoop convert files.length 0 files := by
      simp [runWorker, List.mem_append]
    rw [hmem]
    exact runLoop_mem100 convert files.length files 0 f (by simp) hlast

/-- C4 witness: a one-file batch whose file converts successfully does
reach progress 100. -/
theorem progress_monotone_and_100_iff_last_success_witness :
    WorkerEvent.progressUpdated 100 ∈ runWorker (fun _ => none) ["a.ass"] :=
  ((progress_monotone_and_100_iff_last_success (fun _ => none) ["a.ass"] "a.ass").2 rfl).mpr rfl

/-- C3 witness: with three files of which exactly the second fails, exactly
two file-converted notifications are emitted. -/
theorem batch_run_notifications_witness :
    ((runWorker (fun f => if f = "b.ass" then some "boom" else none)
        ["a.ass", "b.ass", "c.ass"]).filterMap convName).length = 2 :=
  (batch_run_notifications (fun f => if f = "b.ass" then some "boom" else none)
      ["a.ass", "b.ass", "c.ass"]).2.2.2 (by decide)

theorem ass_time_none_iff (t : String) :
    ass_time_to_vtt_time t = none ↔ ¬ validTimeFields t := by
  unfold ass_time_to_vtt_time validTimeFields
  rcases hsplit : pySplitC ':' t.toList with _ | ⟨a, _ | ⟨b, _ | ⟨c, _ | ⟨d, rest⟩⟩⟩⟩ <;>
    simp only [hsplit, List.length_cons, List.length_nil, List.getD]
  · simp
  · simp
  · simp
  · rcases hdot : pySplitC '.' c with _ | ⟨u, _ | ⟨v, _ | ⟨w, rest2⟩⟩⟩ <;>
      simp only [hdot, List.length_cons, List.length_nil, List.getD]
    · simp [hdot]
    · simp [hdot]
    · cases hA : pyIntChars a <;> cases hB : pyIntChars b <;> cases hC : pyIntChars u <;>
        simp [hdot, hA, hB, hC]
    · simp [hdot]
  · simp

theorem generate_vtt_lines_skip_bad (ev : String × String × String)
    (hbad : ass_time_to_vtt_time ev.1 = none ∨ ass_time_to_vtt_time ev.2.1 = none) :
    ∀ (pre post : List (String × String × String)) (i : Nat),
      generate_vtt_lines (pre ++ ev :: post) i
        = generate_vtt_lines pre i ++ generate_vtt_lines post (i + pre.length + 1) := by
  intro pre
  induction pre with
  | nil =>
    intro post i
    obtain ⟨s, e, t⟩ := ev
    rcases hbad with h1 | h2
    · simp only at h1
      simp [generate_vtt_lines, h1]
    · simp only at h2
      cases hs : ass_time_to_vtt_time s <;> simp [generate_vtt_lines, hs, h2]
  | cons p pre' ih =>
    intro post i
    obtain ⟨ps, pe, pt⟩ := p
    have harith : i + 1 + pre'.length + 1 = i + (pre'.length + 1) + 1 := by omega
    cases hs : ass_time_to_vtt_time ps <;> cases he : ass_time_to_vtt_time pe <;>
      simp [generate_vtt_lines, hs, he, ih post (i + 1), harith]

/-- C8 (amended): timestamp conversion fails exactly when the input does
not split into exactly three colon-separated fields, or the seconds field
does not split into exactly two dot-separated parts, or the hours, minutes
or whole-seconds field is not a valid integer literal (the claim's
condition omitted the extra-dot and non-integer cases, e.g. `x:00:00.00`).
Such a failure is a per-event skip and never fatal: the event's cue is
absent from the assembled lines, sibling events' cue blocks are unaffected
(keeping their original numbering), and conversion of a readable, decodable
file as a whole always succeeds. -/
theorem timestamp_failure_characterization :
    (∀ t : String, ass_time_to_vtt_time t = none ↔ ¬ validTimeFields t)
  ∧ (∀ (ev : String × String × String)
        (pre post : List (String × String × String)) (i : Nat),
      ass_time_to_vtt_time ev.1 = none ∨ ass_time_to_vtt_time ev.2.1 = none →
      generate_vtt_lines (pre ++ ev :: post) i
        = generate_vtt_lines pre i ++ generate_vtt_lines post (i + pre.length + 1))
  ∧ (∀ (fileLines : List String) (path suffix : String),
      (convert_ass_to_vtt true (some fileLines) path suffix).isSome = true) :=
  ⟨ass_time_none_iff,
   fun ev pre post i hbad => generate_vtt_lines_skip_bad ev hbad pre post i,
   fun fileLines path suffix => by simp [convert_ass_to_vtt]⟩

/-- C8 witness: skipping the malformed middle event of three leaves the
first and third events' blocks unchanged. -/
theorem timestamp_failure_characterization_witness :
    generate_vtt_lines ([("0:00:00.00", "0:00:01.00", "a")]
        ++ ("1:2", "9:9", "bad") :: [("0:00:02.00", "0:00:03.00", "c")]) 1
      = generate_vtt_lines [("0:00:00.00", "0:00:01.00", "a")] 1
        ++ generate_vtt_lines [("0:00:02.00", "0:00:03.00", "c")] (1 + 1 + 1) :=
  timestamp_failure_characterization.2.1 ("1:2", "9:9", "bad")
    [("0:00:00.00", "0:00:01.00", "a")] [("0:00:02.00", "0:00:03.00", "c")] 1
    (Or.inl (by decide))

theorem digitChar_facts : ∀ d : Nat, d < 10 →
    (Nat.digitChar d).isDigit = true ∧ Nat.digitChar d ≠ ':' ∧ Nat.digitChar d ≠ '.' ∧
    Nat.digitChar d ≠ '_' ∧ Nat.digitChar d ≠ '+' ∧ Nat.digitChar d ≠ '-' ∧
    pyIsSpace (Nat.digitChar d) = false ∧ (Nat.digitChar d).toNat - 48 = d := by
  decide

theorem pySplitC_nosep (sep : Char) : ∀ (a : List Char), sep ∉ a → pySplitC sep a = [a] := by
  intro a
  induction a with
  | nil => intro _; rfl
  | cons c rest ih =>
    intro h
    have hc : ¬(c = sep) := fun hcs => h (hcs ▸ List.mem_cons_self c rest)
    have hr := ih (fun hm => h (List.mem_cons_of_mem c hm))
    simp only [pySplitC, hr, if_neg hc]

theorem pySplitC_ne_nil (sep : Char) : ∀ cs : List Char, pySplitC sep cs ≠ [] := by
  intro cs
  cases cs with
  | nil => simp [pySplitC]
  | cons c rest =>
    simp only [pySplitC]
    cases pySplitC sep rest with
    | nil => simp
    | cons f fs => by_cases hc : c = sep <;> simp [hc]

theorem pySplitC_append (sep : Char) : ∀ (a b : List Char), sep ∉ a →
    pySplitC sep (a ++ sep :: b) = a :: pySplitC sep b := by
  intro a
  induction a with
  | nil =>
    intro b _
    simp only [List.nil_append, pySplitC]
    cases hb : pySplitC sep b with
    | nil => exact absurd hb (pySplitC_ne_nil sep b)
    | cons f fs => simp
  | cons c rest ih =>
    intro b h
    have hc : ¬(c = sep) := fun hcs => h (hcs ▸ List.mem_cons_self c rest)
    have hr := ih b (fun hm => h (List.mem_cons_of_mem c hm))
    simp only [List.cons_append, pySplitC]
    rw [show rest.append (sep :: b) = rest ++ sep :: b from rfl, hr]
    simp [hc]

theorem dropWhile_eq_self_of (p : Char → Bool) (l : List Char)
    (h : ∀ c ∈ l, p c = false) : l.dropWhile p = l := by
  cases l with
  | nil => rfl
  | cons c rest => simp [List.dropWhile, h c (List.mem_cons_self c rest)]

theorem pyStripChars_nospace (cs : List Char) (h : ∀ c ∈ cs, pyIsSpace c = false) :
    pyStripChars cs = cs := by
  unfold pyStripChars
  rw [dropWhile_eq_self_of pyIsSpace cs h]
  rw [dropWhile_eq_self_of pyIsSpace cs.reverse (fun c hc => h c (List.mem_reverse.mp hc))]
  exact List.reverse_reverse cs

theorem digit_map_nospace (l : List Nat) (h : ∀ d ∈ l, d < 10) :
    ∀ c ∈ l.map Nat.digitChar, pyIsSpace c = false := by
  intro c hc
  obtain ⟨d, hd, rfl⟩ := List.mem_map.mp hc
  exact (digitChar_facts d (h d hd)).2.2.2.2.2.2.1

theorem digit_map_no_colon (l : List Nat) (h : ∀ d ∈ l, d < 10) :
    ':' ∉ l.map Nat.digitChar := by
  intro hc
  obtain ⟨d, hd, he⟩ := List.mem_map.mp hc
  exact (digitChar_facts d (h d hd)).2.1 he

theorem digit_map_no_dot (l : List Nat) (h : ∀ d ∈ l, d < 10) :
    '.' ∉ l.map Nat.digitChar := by
  intro hc
  obtain ⟨d, hd, he⟩ := List.mem_map.mp hc
  exact (digitChar_facts d (h d hd)).2.2.1 he

theorem digit_fold_val (l : List Nat) (h : ∀ d ∈ l, d < 10) : ∀ acc : Nat,
    (l.map Nat.digitChar).foldl (fun a c => if c = '_' then a else a * 10 + (c.toNat - 48)) acc
      = l.foldl (fun a d => a * 10 + d) acc := by
  induction l with
  | nil => intro acc; rfl
  | cons d rest ih =>
    intro acc
    have hd := digitChar_facts d (h d (List.mem_cons_self d rest))
    simp only [List.map_cons, List.foldl_cons, if_neg hd.2.2.2.1, hd.2.2.2.2.2.2.2]
    exact ih (fun x hx => h x (List.mem_cons_of_mem d hx)) _

theorem pyDigitsRest_digits (l : List Nat) (h : ∀ d ∈ l, d < 10) :
    pyDigitsRest (l.map Nat.digitChar) = true := by
  induction l with
  | nil => rfl
  | cons d rest ih =>
    have hd := digitChar_facts d (h d (List.mem_cons_self d rest))
    simp only [List.map_cons]
    rw [pyDigitsRest.eq_def]
    simp only [if_neg hd.2.2.2.1, hd.1, Bool.true_and]
    exact ih (fun x hx => h x (List.mem_cons_of_mem d hx))

theorem pyIntChars_digits (l : List Nat) (hne : l ≠ []) (h : ∀ d ∈ l, d < 10) :
    pyIntChars (l.map Nat.digitChar) = some (Int.ofNat (decVal l)) := by
  cases l with
  | nil => exact absurd rfl hne
  | cons d rest =>
    have hd := digitChar_facts d (h d (List.mem_cons_self d rest))
    have hstrip := pyStripChars_nospace ((d :: rest).map Nat.digitChar)
      (digit_map_nospace (d :: rest) h)
    unfold pyIntChars
    rw [hstrip]
    simp only [List.map_cons]
    rw [if_neg hd.2.2.2.2.1]
    rw [if_neg hd.2.2.2.2.2.1]
    have hok : pyDigitsOk (Nat.digitChar d :: rest.map Nat.digitChar) = true := by
      simp only [pyDigitsOk, hd.1, Bool.true_and]
      exact pyDigitsRest_digits rest (fun x hx => h x (List.mem_cons_of_mem d hx))
    rw [if_pos hok]
    have hval : digitsVal (Nat.digitChar d :: rest.map Nat.digitChar) = decVal (d :: rest) := by
      unfold digitsVal decVal
      exact digit_fold_val (d :: rest) h 0
    rw [hval]

theorem fmt02_ofNat (n : Nat) : fmt02 (Int.ofNat n) = zeroPad2 n := by
  unfold fmt02 zeroPad2
  simp only [Int.ofNat_eq_natCast, Int.natAbs_ofNat]
  rw [if_neg (by omega : ¬((n : Int) < 0))]
  by_cases h : n < 10
  · rw [if_pos (by omega : ((n : Int) < 10)), if_pos h]
  · rw [if_neg (by omega : ¬((n : Int) < 10)), if_neg h]

theorem ms_pad : ∀ c1 : Nat, c1 < 10 → ∀ c2 : Nat, c2 < 10 →
    String.mk [Nat.digitChar c1, Nat.digitChar c2] ++ "0" = zeroPad3 ((c1 * 10 + c2) * 10) := by
  decide

/-- C1: for every ASS timestamp of the form `H+:MM:SS.CC` — an arbitrary
nonempty run of hour digits, two minute digits, two second digits, two
centisecond digits — the conversion succeeds and returns
`HH:MM:SS.mmm` where hours, minutes and seconds are preserved numerically
and zero-padded to at least 2 digits (hours growing beyond 2 digits as
needed, since `zeroPad2` never truncates), and the millisecond field is
the centisecond value times 10 zero-padded to 3 digits. -/
theorem ass_time_roundtrip (hd : List Nat) (m1 m2 s1 s2 c1 c2 : Nat)
    (hne : hd ≠ []) (hhd : ∀ d ∈ hd, d < 10)
    (hm1 : m1 < 10) (hm2 : m2 < 10) (hs1 : s1 < 10) (hs2 : s2 < 10)
    (hc1 : c1 < 10) (hc2 : c2 < 10) :
    ass_time_to_vtt_time (assTimeOf hd m1 m2 s1 s2 c1 c2)
      = some (zeroPad2 (decVal hd) ++ ":" ++ zeroPad2 (m1 * 10 + m2) ++ ":"
          ++ zeroPad2 (s1 * 10 + s2) ++ "." ++ zeroPad3 ((c1 * 10 + c2) * 10)) := by
  have fm1 := digitChar_facts m1 hm1
  have fm2 := digitChar_facts m2 hm2
  have fs1 := digitChar_facts s1 hs1
  have fs2 := digitChar_facts s2 hs2
  have fc1 := digitChar_facts c1 hc1
  have fc2 := digitChar_facts c2 hc2
  have hA : ':' ∉ hd.map Nat.digitChar := digit_map_no_colon hd hhd
  have hB : ':' ∉ [Nat.digitChar m1, Nat.digitChar m2] := by
    simp only [List.mem_cons, List.not_mem_nil, or_false]
    push_neg
    exact ⟨Ne.symm fm1.2.1, Ne.symm fm2.2.1⟩
  have hC : ':' ∉ [Nat.digitChar s1, Nat.digitChar s2, '.', Nat.digitChar c1,
      Nat.digitChar c2] := by
    simp only [List.mem_cons, List.not_mem_nil, or_false]
    push_neg
    exact ⟨Ne.symm fs1.2.1, Ne.symm fs2.2.1, by decide, Ne.symm fc1.2.1, Ne.symm fc2.2.1⟩
  have hD1 : '.' ∉ [Nat.digitChar s1, Nat.digitChar s2] := by
    simp only [List.mem_cons, List.not_mem_nil, or_false]
    push_neg
    exact ⟨Ne.symm fs1.2.2.1, Ne.symm fs2.2.2.1⟩
  have hD2 : '.' ∉ [Nat.digitChar c1, Nat.digitChar c2] := by
    simp only [List.mem_cons, List.not_mem_nil, or_false]
    push_neg
    exact ⟨Ne.symm fc1.2.2.1, Ne.symm fc2.2.2.1⟩
  have hlist : (assTimeOf hd m1 m2 s1 s2 c1 c2).toList
      = hd.map Nat.digitChar ++ ':' :: ([Nat.digitChar m1, Nat.digitChar m2]
          ++ ':' :: [Nat.digitChar s1, Nat.digitChar s2, '.', Nat.digitChar c1,
            Nat.digitChar c2]) := rfl
  have hsplit1 : pySplitC ':' (assTimeOf hd m1 m2 s1 s2 c1 c2).toList
      = [hd.map Nat.digitChar, [Nat.digitChar m1, Nat.digitChar m2],
         [Nat.digitChar s1, Nat.digitChar s2, '.', Nat.digitChar c1, Nat.digitChar c2]] := by
    rw [hlist, pySplitC_append ':' _ _ hA, pySplitC_append ':' _ _ hB, pySplitC_nosep ':' _ hC]
  have hsplit2 : pySplitC '.' [Nat.digitChar s1, Nat.digitChar s2, '.', Nat.digitChar c1,
        Nat.digitChar c2]
      = [[Nat.digitChar s1, Nat.digitChar s2], [Nat.digitChar c1, Nat.digitChar c2]] := by
    rw [show ([Nat.digitChar s1, Nat.digitChar s2, '.', Nat.digitChar c1, Nat.digitChar c2]
          : List Char)
        = [Nat.digitChar s1, Nat.digitChar s2] ++ '.' :: [Nat.digitChar c1, Nat.digitChar c2]
      from rfl]
    rw [pySplitC_append '.' _ _ hD1, pySplitC_nosep '.' _ hD2]
  have hintH : pyIntChars (hd.map Nat.digitChar) = some (Int.ofNat (decVal hd)) :=
    pyIntChars_digits hd hne hhd
  have hintM : pyIntChars [Nat.digitChar m1, Nat.digitChar m2]
      = some (Int.ofNat (m1 * 10 + m2)) := by
    have := pyIntChars_digits [m1, m2] (by simp)
      (by intro d hdm; rcases List.mem_cons.mp hdm with rfl | hdm2
          · exact hm1
          · rcases List.mem_cons.mp hdm2 with rfl | hdm3
            · exact hm2
            · simp at hdm3)
    simpa [decVal] using this
  have hintS : pyIntChars [Nat.digitChar s1, Nat.digitChar s2]
      = some (Int.ofNat (s1 * 10 + s2)) := by
    have := pyIntChars_digits [s1, s2] (by simp)
      (by intro d hdm; rcases List.mem_cons.mp hdm with rfl | hdm2
          · exact hs1
          · rcases List.mem_cons.mp hdm2 with rfl | hdm3
            · exact hs2
            · simp at hdm3)
    simpa [decVal] using this
  unfold ass_time_to_vtt_time
  rw [hsplit1]
  simp only [hsplit2, hintH, hintM, hintS]
  rw [fmt02_ofNat, fmt02_ofNat, fmt02_ofNat, ms_pad c1 hc1 c2 hc2]

/-- C1 witness: `0:01:02.50` converts to `00:01:02.500`. -/
theorem ass_time_roundtrip_witness :
    ass_time_to_vtt_time (assTimeOf [0] 0 1 0 2 5 0)
      = some (zeroPad2 (decVal [0]) ++ ":" ++ zeroPad2 (0 * 10 + 1) ++ ":"
          ++ zeroPad2 (0 * 10 + 2) ++ "." ++ zeroPad3 ((5 * 10 + 0) * 10)) ∧
    assTimeOf [0] 0 1 0 2 5 0 = "0:01:02.50" ∧
    zeroPad2 (decVal [0]) ++ ":" ++ zeroPad2 (0 * 10 + 1) ++ ":" ++ zeroPad2 (0 * 10 + 2)
      ++ "." ++ zeroPad3 ((5 * 10 + 0) * 10) = "00:01:02.500" :=
  ⟨ass_time_roundtrip [0] 0 1 0 2 5 0 (by decide) (by decide) (by decide) (by decide)
      (by decide) (by decide) (by decide) (by decide),
   by decide, by decide⟩
